import Mathlib

/-!
Verification of the template compilation engine of the darkil-nodes
repository: the shared parsing utilities (src/nodes/utilities.py), the
variable-builder nodes (src/nodes/text/variable_builder.py,
src/nodes/text/advanced_variable_builder.py) and the prompt compiler
(src/nodes/text/prompt_builder.py with src/nodes/text/directives.py).

The Python code is embedded shallowly: strings are Lean String / List Char,
Python dicts are association lists where a later binding shadows an earlier
one, and the random number generator consumed by random.choice is an
explicit stream (Nat → Nat) together with a draw counter.  Character
classes follow the ASCII behaviour of the Python string methods involved
(lower, upper, strip, splitlines), which is what every claim exercises.
-/

/-- The whitespace set of Python str.strip() (ASCII): space, tab, newline,
carriage return, vertical tab, form feed. -/
def pyWs (c : Char) : Bool :=
  c == ' ' || c == '\t' || c == '\n' || c == '\r' || c == '\x0b' || c == '\x0c'

/-- Python str.strip(): drop leading and trailing whitespace. -/
def pyStrip (s : String) : String :=
  ⟨((s.data.dropWhile pyWs).reverse.dropWhile pyWs).reverse⟩

/-- Python str.lower() (ASCII). -/
def pyLower (s : String) : String := ⟨s.data.map Char.toLower⟩

/-- Python str.upper() (ASCII). -/
def pyUpper (s : String) : String := ⟨s.data.map Char.toUpper⟩

/-- Helper for splitFirst: split a character list at the first occurrence
of the needle, returning the part before and the part after the needle. -/
def splitFirstAux (needle : List Char) : List Char → Option (List Char × List Char)
  | [] => none
  | c :: cs =>
    if needle.isPrefixOf (c :: cs) then
      some ([], (c :: cs).drop needle.length)
    else
      (splitFirstAux needle cs).map (fun p => (c :: p.1, p.2))

/-- Python s.split(sep, 1): split at the first occurrence of sep.  When sep
does not occur the second component is empty (all uses in the source are
guarded by a containment test). -/
def splitFirst (s sep : String) : String × String :=
  match splitFirstAux sep.data s.data with
  | some (a, b) => (⟨a⟩, ⟨b⟩)
  | none => (s, "")

/-- Python `sub in s` for a multi-character sub (substring containment). -/
def hasSubstr (s sub : String) : Bool :=
  go s.data
where
  go : List Char → Bool
    | [] => sub.data.isPrefixOf []
    | c :: cs => sub.data.isPrefixOf (c :: cs) || go cs

/-- Python s.split(sep) for a nonempty separator, fuel-bounded scan over
the first occurrences; fuel equal to the length of the text suffices since
every split consumes at least one character. -/
def pySplitGo (sep : List Char) : Nat → List Char → List (List Char)
  | 0, cs => [cs]
  | f + 1, cs =>
    match splitFirstAux sep cs with
    | none => [cs]
    | some (before, after) => before :: pySplitGo sep f after

/-- Python s.split(sep). -/
def pySplit (s sep : String) : List String :=
  (pySplitGo sep.data (s.data.length + 1) s.data).map (fun l => ⟨l⟩)

/-- Python sep.join(xs). -/
def pyIntercalate (sep : String) (xs : List String) : String :=
  ⟨List.intercalate sep.data (xs.map String.data)⟩

/-- Python s.startswith(pre). -/
def pyStartsWith (s pre : String) : Bool := pre.data.isPrefixOf s.data


/-- Lookup in an association list with Python dict semantics: the latest
binding of a key wins. -/
def dictFind (d : List (String × String)) (k : String) : Option String :=
  d.foldl (fun acc p => if p.1 = k then some p.2 else acc) none

/-- Python raw_dict.get(k, ""). -/
def pyGet (d : List (String × String)) (k : String) : String :=
  (dictFind d k).getD ""

/-! ## src/nodes/utilities.py: split_input_lines -/

/-- Split a character list at the first newline character (\n or \r),
returning the prefix and the rest (which starts with the newline). -/
def splitAtFirstNl : List Char → Option (List Char × List Char)
  | [] => none
  | c :: cs =>
    if c = '\n' ∨ c = '\r' then some ([], c :: cs)
    else (splitAtFirstNl cs).map (fun p => (c :: p.1, p.2))

/-- Leftmost match of the separator regex [ \t]*[\n\r]+[ \t]* used by
split_input_lines: the text before the separator and the text after it. -/
def findWsSep (cs : List Char) : Option (List Char × List Char) :=
  match splitAtFirstNl cs with
  | none => none
  | some (pre, rest) =>
    some ((pre.reverse.dropWhile (fun c => c == ' ' || c == '\t')).reverse,
          (rest.dropWhile (fun c => c == '\n' || c == '\r')).dropWhile
            (fun c => c == ' ' || c == '\t'))

/-- re.split of the separator regex with an explicit maxsplit bound:
after maxsplit separators the remainder is returned as one final piece. -/
def wsSplitGo : Nat → List Char → List (List Char)
  | 0, cs => [cs]
  | m + 1, cs =>
    match findWsSep cs with
    | none => [cs]
    | some (before, after) => before :: wsSplitGo m after

/-- src/nodes/utilities.py split_input_lines, string branch.  The source
calls re.split(pattern, inp, re.I + re.M): the third positional argument of
re.split is maxsplit, so the flags value re.I + re.M = 2 + 8 = 10 acts as
maxsplit = 10.  A string without newline characters is returned as a single
stripped element. -/
def split_input_lines (inp : String) : List String :=
  if inp.data.any (fun c => c == '\n' || c == '\r') then
    (wsSplitGo 10 inp.data).map (fun cs => ⟨cs⟩)
  else
    [pyStrip inp]

/-! ## src/nodes/utilities.py: parse_input_lines -/

/-- src/nodes/utilities.py parse_input_lines: every line containing = is
split at the first = into a name and a value, both stripped, a later
binding shadowing an earlier one; a non-empty line without = becomes the
default value (the line itself, as written in the source); empty lines are
skipped. -/
def parse_input_lines (lines : List String) : List (String × String) × String :=
  lines.foldl
    (fun acc line =>
      if line = "" then acc
      else if line.data.contains '=' then
        let nv := splitFirst line "="
        (acc.1 ++ [(pyStrip nv.1, pyStrip nv.2)], acc.2)
      else
        (acc.1, line))
    ([], "")

/-! ## src/nodes/utilities.py: choose_variant and the boolean evaluator -/

/-- src/nodes/utilities.py choose_variant, with random.choice modelled by
drawing the next value of the stream rng at position idx: the |-separated
parts are stripped and part number rng idx mod (number of parts) is
returned, together with the advanced draw counter.  Python
"".split("|") = [""] so the part list is never empty. -/
def choose_variant (rng : Nat → Nat) (idx : Nat) (value : String) : String × Nat :=
  let parts := (pySplit value "|").map pyStrip
  (parts.getD (rng idx % parts.length) "", idx + 1)

/-- The falsy strings of the boolean evaluator. -/
def falsyList : List String := ["", "0", "false", "none"]

/-- src/nodes/utilities.py evaluate_part_bool. -/
def evaluate_part_bool (part : String) (raw : List (String × String))
    (rng : Nat → Nat) (idx : Nat) : Bool × Nat :=
  if pyLower part = "true" ∨ pyLower part = "false" then
    (pyLower part = "true", idx)
  else
    let v := pyGet raw part
    let c := choose_variant rng idx v
    (!(falsyList.contains (pyLower c.1)), c.2)

/-- all(evaluate_part_bool(part, raw_dict) for part in parts): Python all
over a generator short-circuits, so later parts draw no randomness once one
part is false. -/
def evalAllParts (parts : List String) (raw : List (String × String))
    (rng : Nat → Nat) (idx : Nat) : Bool × Nat :=
  match parts with
  | [] => (true, idx)
  | p :: ps =>
    let b := evaluate_part_bool p raw rng idx
    if b.1 then evalAllParts ps raw rng b.2 else (false, b.2)

/-- any(evaluate_part_bool(part, raw_dict) for part in parts),
short-circuiting on the first true part. -/
def evalAnyParts (parts : List String) (raw : List (String × String))
    (rng : Nat → Nat) (idx : Nat) : Bool × Nat :=
  match parts with
  | [] => (false, idx)
  | p :: ps =>
    let b := evaluate_part_bool p raw rng idx
    if b.1 then (true, b.2) else evalAnyParts ps raw rng b.2

/-- src/nodes/utilities.py raw_as_bool.  default_single_line is an optional
string; Python treats None and the empty string the same way in the guard
`if default_single_line and (...)`.  The unreachable final else of the
compound branch (the guard guarantees one of the two operators is present)
is represented by the or-split arm being taken whenever && is absent. -/
def raw_as_bool (token : String) (raw : List (String × String))
    (dflt : Option String) (rng : Nat → Nat) (idx : Nat) : Bool × Nat :=
  let lowered := pyStrip (pyLower token)
  if dflt.getD "" ≠ "" ∧
      (token = "" ∨ lowered = "default" ∨ lowered = "def" ∨ lowered = "_") then
    (!(falsyList.contains (pyLower (dflt.getD ""))), idx)
  else if lowered = "true" ∨ lowered = "false" then
    (lowered = "true", idx)
  else if hasSubstr token "&&" || hasSubstr token "||" then
    if hasSubstr token "&&" then
      evalAllParts ((pySplit token "&&").map pyStrip) raw rng idx
    else
      evalAnyParts ((pySplit token "||").map pyStrip) raw rng idx
  else
    let c := choose_variant rng idx (pyGet raw token)
    (!(falsyList.contains (pyLower c.1)), c.2)

/-! ## src/nodes/utilities.py: strip_quotes and the comment strippers -/

/-- src/nodes/utilities.py strip_quotes: returns the inner text of a
double-quoted token (after stripping), none otherwise. -/
def strip_quotes (token : String) : Option String :=
  let t := (pyStrip token).data
  if 2 ≤ t.length ∧ t.headD ' ' = '\"' ∧ t.getLastD ' ' = '\"' then
    some ⟨(t.drop 1).dropLast⟩
  else
    none

/-- Fuel-bounded scan of remove_multiline_comments: erase every non-greedy
/* ... */ span, leftmost first; a /* with no later */ is left untouched
(the regex finds no further match in that case).  Every step consumes at
least one character, so fuel equal to the length of the text suffices. -/
def rmMultilineGo : Nat → List Char → List Char
  | 0, cs => cs
  | f + 1, cs =>
    match cs with
    | [] => []
    | c :: rest =>
      if c = '/' ∧ rest.headD ' ' = '*' then
        match splitFirstAux "*/".data (rest.drop 1) with
        | some p => rmMultilineGo f p.2
        | none => c :: rest
      else
        c :: rmMultilineGo f rest

/-- src/nodes/utilities.py remove_multiline_comments:
re.sub of the non-greedy pattern /\*.*?\*/ (DOTALL) with the empty string. -/
def remove_multiline_comments (text : String) : String :=
  ⟨rmMultilineGo text.data.length text.data⟩

/-- Python str.splitlines restricted to the line breaks occurring in this
code base: \n, \r and \r\n (a trailing break produces no extra empty
line). -/
def pySplitLinesGo (cur : List Char) : List Char → List (List Char)
  | [] => if cur = [] then [] else [cur.reverse]
  | '\r' :: '\n' :: rest => cur.reverse :: pySplitLinesGo [] rest
  | '\r' :: rest => cur.reverse :: pySplitLinesGo [] rest
  | '\n' :: rest => cur.reverse :: pySplitLinesGo [] rest
  | c :: rest => pySplitLinesGo (c :: cur) rest

/-- Python text.splitlines() (ASCII line breaks). -/
def pySplitLines (s : String) : List String :=
  (pySplitLinesGo [] s.data).map (fun l => ⟨l⟩)

/-- src/nodes/utilities.py remove_singleline_comments: each line is
truncated at its first #, lines are rejoined with \n. -/
def remove_singleline_comments (text : String) : String :=
  pyIntercalate "\n"
    ((pySplitLines text).map (fun l => ⟨l.data.takeWhile (fun c => c != '#')⟩))

/-- src/nodes/utilities.py strip_all_comments. -/
def strip_all_comments (text : String) : String :=
  remove_singleline_comments (remove_multiline_comments text)

/-! ## src/nodes/text/directives.py -/

/-- Collapse immediate repetitions of the character sp to one occurrence
(used to model the regex substitutions \s+ -> one space and
\n\x7b2,\x7d -> one newline after normalising). -/
def collapseDoubles (sp : Char) : List Char → List Char
  | [] => []
  | [c] => [c]
  | c1 :: c2 :: rest =>
    if c1 = sp ∧ c2 = sp then collapseDoubles sp (c2 :: rest)
    else c1 :: collapseDoubles sp (c2 :: rest)

/-- directive_spaceless: re.sub(\s+, one space) then strip. -/
def directive_spaceless (text : String) : String :=
  pyStrip ⟨collapseDoubles ' ' (text.data.map (fun c => if pyWs c then ' ' else c))⟩

/-- directive_lower. -/
def directive_lower (text : String) : String := pyLower text

/-- directive_upper. -/
def directive_upper (text : String) : String := pyUpper text

/-- Python str.title (ASCII): an alphabetic character is uppercased when
the previous character is not alphabetic, lowercased otherwise. -/
def pyTitleGo (prevAlpha : Bool) : List Char → List Char
  | [] => []
  | c :: rest =>
    if c.isAlpha then
      (if prevAlpha then c.toLower else c.toUpper) :: pyTitleGo true rest
    else
      c :: pyTitleGo false rest

/-- directive_title. -/
def directive_title (text : String) : String := ⟨pyTitleGo false text.data⟩

/-- ASCII word character of the regex class \w. -/
def isWordChar (c : Char) : Bool := c.isAlphanum || c == '_'

/-- State machine equivalent of re.sub(([.!?]\s+)(\w), uppercase the word
character): state 1 = a sentence-ending punctuation character was just
seen, state 2 = punctuation followed by at least one whitespace character,
state 0 = anything else. -/
def sentGo (state : Nat) : List Char → List Char
  | [] => []
  | c :: rest =>
    if c = '.' ∨ c = '!' ∨ c = '?' then c :: sentGo 1 rest
    else if (state = 1 ∨ state = 2) ∧ pyWs c then c :: sentGo 2 rest
    else if state = 2 ∧ isWordChar c then c.toUpper :: sentGo 0 rest
    else c :: sentGo 0 rest

/-- sentence_case of src/nodes/text/directives.py: strip, uppercase the
first character, then capitalise the first word character after each
sentence-ending punctuation-plus-whitespace run. -/
def sentence_case (s : String) : String :=
  let t := pyStrip s
  match t.data with
  | [] => t
  | c :: rest => ⟨sentGo 0 (c.toUpper :: rest)⟩

/-- directive_sentence. -/
def directive_sentence (text : String) : String := sentence_case text

/-- directive_trim. -/
def directive_trim (text : String) : String := pyStrip text

/-- Space or tab. -/
def isSpaceTab (c : Char) : Bool := c == ' ' || c == '\t'

/-- Longest common prefix of two character lists. -/
def commonPrefix : List Char → List Char → List Char
  | x :: xs, y :: ys => if x = y then x :: commonPrefix xs ys else []
  | _, _ => []

/-- directive_dedent: textwrap.dedent.  Whitespace-only lines are blanked;
the margin is the longest common prefix of the leading space-tab runs of
the remaining non-empty lines; the margin is removed from the front of
every line that carries it. -/
def directive_dedent (text : String) : String :=
  let lines0 := (pySplit text "\n").map String.data
  let lines := lines0.map (fun l => if l ≠ [] ∧ l.all isSpaceTab then [] else l)
  let margins := (lines.filter (fun l => l ≠ [])).map (fun l => l.takeWhile isSpaceTab)
  let margin :=
    match margins with
    | [] => ([] : List Char)
    | m :: ms => ms.foldl commonPrefix m
  let ded := lines.map (fun l =>
    if !margin.isEmpty && margin.isPrefixOf l then l.drop margin.length else l)
  pyIntercalate "\n" (ded.map (fun l => ⟨l⟩))

/-- directive_collapse_newlines: re.sub(\n\x7b2,\x7d, one newline). -/
def directive_collapse_newlines (text : String) : String :=
  ⟨collapseDoubles '\n' text.data⟩

/-- The characters of Python string.punctuation. -/
def pyPunctuation : List Char :=
  "!\"#$%&\x27()*+,-./:;<=>?@[\\]^_\x60\x7b|\x7d~".data

/-- directive_strip_punct: delete every punctuation character. -/
def directive_strip_punct (text : String) : String :=
  ⟨text.data.filter (fun c => !(pyPunctuation.contains c))⟩

/-- Restricted model of the Python standard library function html.unescape
(library code, not part of this repository): the five XML entities.  No
claim exercises this directive; it is included so that the directive table
is total. -/
def htmlEntities : List (String × Char) :=
  [("&amp;", '&'), ("&lt;", '<'), ("&gt;", '>'), ("&quot;", '\"'), ("&#39;", '\x27')]

/-- One unescape step: the first entity that starts here, if any. -/
def findEntity (cs : List Char) : Option (Char × Nat) :=
  htmlEntities.findSome? (fun e =>
    if e.1.data.isPrefixOf cs then some (e.2, e.1.length) else none)

/-- Fuel-bounded scan for directive_unescape_html; fuel equal to the length
of the text suffices because every step consumes at least one character. -/
def unescGo : Nat → List Char → List Char
  | 0, cs => cs
  | f + 1, cs =>
    match cs with
    | [] => []
    | c :: rest =>
      match findEntity (c :: rest) with
      | some (r, n) => r :: unescGo f ((c :: rest).drop n)
      | none => c :: unescGo f rest

/-- directive_unescape_html (restricted model, see htmlEntities). -/
def directive_unescape_html (text : String) : String :=
  ⟨unescGo text.data.length text.data⟩

/-- directive_list: drop empty lines, strip leading whitespace of each
line, rejoin with newlines. -/
def directive_list (text : String) : String :=
  let lines := (pySplitLines text).map (fun l => (⟨l.data.dropWhile pyWs⟩ : String))
  pyIntercalate "\n" (lines.filter (fun l => l ≠ ""))

/-- directive_list_right: like directive_list but stripping both sides. -/
def directive_list_right (text : String) : String :=
  let lines := (pySplitLines text).map pyStrip
  pyIntercalate "\n" (lines.filter (fun l => l ≠ ""))

/-- directive_list_and: join the non-empty stripped lines with commas,
the last one attached with "and". -/
def directive_list_and (text : String) : String :=
  let nonEmpty := ((pySplitLines text).map pyStrip).filter (fun l => l ≠ "")
  match nonEmpty with
  | [] => ""
  | _ =>
    let lastWord := nonEmpty.getLastD ""
    let result := pyIntercalate ", " nonEmpty.dropLast
    if result = "" then pyStrip lastWord
    else pyStrip (result ++ " and " ++ lastWord)

/-! ## src/nodes/text/prompt_builder.py -/

/-- A JSON-decoded context value as SimplePromptBuilder receives it:
boolean, string or integer. -/
inductive PyVal where
  | pyBool (b : Bool)
  | pyStr (s : String)
  | pyInt (n : Int)
deriving DecidableEq, Repr

/-- Python str() of a context value. -/
def pyValToStr : PyVal → String
  | .pyBool b => if b then "True" else "False"
  | .pyStr s => s
  | .pyInt n => toString n

/-- SimplePromptBuilder._to_bool: a bool is returned as is, anything else
is true exactly when its lowercased string form is true, 1, yes or +. -/
def to_bool : PyVal → Bool
  | .pyBool b => b
  | v => ["true", "1", "yes", "+"].contains (pyLower (pyValToStr v))

/-- The merged context dictionary (cachedValues plus keyword overrides). -/
abbrev Ctx := List (String × PyVal)

/-- Dictionary lookup in a context, the latest binding winning. -/
def ctxFind (d : Ctx) (k : String) : Option PyVal :=
  d.foldl (fun acc p => if p.1 = k then some p.2 else acc) none

/-- A character allowed in a toggle tag name: not ], :, / or [. -/
def tagNameChar (c : Char) : Bool :=
  !(c == ']' || c == ':' || c == '/' || c == '[')

/-- A character allowed in a toggle group name: not ] or [. -/
def groupChar (c : Char) : Bool := !(c == ']' || c == '[')

/-- First match of the closing part of the toggle pattern for a given tag
name: the first occurrence of [[/NAME]] or [[NAME]], returning the text
before it (the lazily matched inner text) and the text after it. -/
def findTagClose (name : List Char) : List Char → Option (List Char × List Char)
  | [] => none
  | c :: cs =>
    let close1 := '[' :: '[' :: '/' :: (name ++ [']', ']'])
    let close2 := '[' :: '[' :: (name ++ [']', ']'])
    if close1.isPrefixOf (c :: cs) then some ([], (c :: cs).drop close1.length)
    else if close2.isPrefixOf (c :: cs) then some ([], (c :: cs).drop close2.length)
    else (findTagClose name cs).map (fun p => (c :: p.1, p.2))

/-- Match of the toggle-tag regex anchored at the start of the text:
[[NAME]] or [[NAME:GROUP]], lazy inner text, closing [[/NAME]] or
[[NAME]].  Returns (raw tag name, inner text, rest after the span). -/
def tryTagAt (cs : List Char) : Option (List Char × List Char × List Char) :=
  match cs with
  | '[' :: '[' :: rest =>
    let name := rest.takeWhile tagNameChar
    if name.isEmpty then none
    else
      let after := rest.drop name.length
      let body? : Option (List Char) :=
        match after with
        | ':' :: gs =>
          let grp := gs.takeWhile groupChar
          if grp.isEmpty then none
          else match gs.drop grp.length with
            | ']' :: ']' :: rest2 => some rest2
            | _ => none
        | ']' :: ']' :: rest2 => some rest2
        | _ => none
      match body? with
      | none => none
      | some body => (findTagClose name body).map (fun p => (name, p.1, p.2))
  | _ => none

/-- Fuel-bounded scan of tag_pattern.sub over the text: at each position a
full toggle span is either replaced (by its inner text when the tag is
enabled, by nothing otherwise) with scanning resuming after the span, or
the character is kept.  Fuel equal to the length of the text suffices
because every step consumes at least one character. -/
def applyTagTogglesGo (cache : Ctx) : Nat → List Char → List Char
  | 0, cs => cs
  | _ + 1, [] => []
  | f + 1, c :: cs =>
    match tryTagAt (c :: cs) with
    | some (name, inner, post) =>
      let tagName := pyStrip ⟨name⟩
      let enabled := to_bool ((ctxFind cache tagName).getD (.pyBool true))
      (if enabled then inner else []) ++ applyTagTogglesGo cache f post
    | none => c :: applyTagTogglesGo cache f cs

/-- SimplePromptBuilder.build_prompt, apply_tag_toggles helper: keep or
discard the sections wrapped in toggle tags according to the boolean value
of the tag in the cache, an absent tag defaulting to true. -/
def apply_tag_toggles (text : String) (cache : Ctx) : String :=
  ⟨applyTagTogglesGo cache text.data.length text.data⟩

/-- A character of the regex class [^:\x7b\x7d] of the typed-placeholder
pattern. -/
def phNameChar (c : Char) : Bool :=
  !(c == ':' || c == '\x7b' || c == '\x7d')

/-- A character of the regex class [^\x7b\x7d]. -/
def phAnyChar (c : Char) : Bool := !(c == '\x7b' || c == '\x7d')

/-- Match of the typed placeholder pattern
\x7b\x7b(NAME):(V2):(V3):(V4)\x7d\x7d anchored at the start of the text:
NAME is one or more characters outside :\x7b\x7d, the next two fields are
zero or more such characters, the last field may also contain colons.
Returns (name, rest after the placeholder). -/
def tryPH4At (cs : List Char) : Option (List Char × List Char) :=
  match cs with
  | '\x7b' :: '\x7b' :: rest =>
    let g1 := rest.takeWhile phNameChar
    if g1.isEmpty then none
    else match rest.drop g1.length with
    | ':' :: r2 =>
      let g2 := r2.takeWhile phNameChar
      match r2.drop g2.length with
      | ':' :: r3 =>
        let g3 := r3.takeWhile phNameChar
        match r3.drop g3.length with
        | ':' :: r4 =>
          let g4 := r4.takeWhile phAnyChar
          match r4.drop g4.length with
          | '\x7d' :: '\x7d' :: post => some (g1, post)
          | _ => none
        | _ => none
      | _ => none
    | _ => none
  | _ => none

/-- Match of the short placeholder pattern
\x7b\x7b(NAME)(:PART)?\x7d\x7d anchored at the start of the text. -/
def tryPHdupAt (cs : List Char) : Option (List Char × List Char) :=
  match cs with
  | '\x7b' :: '\x7b' :: rest =>
    let g1 := rest.takeWhile phNameChar
    if g1.isEmpty then none
    else match rest.drop g1.length with
    | '\x7d' :: '\x7d' :: post => some (g1, post)
    | ':' :: r2 =>
      let g2 := r2.takeWhile phNameChar
      if g2.isEmpty then none
      else match r2.drop g2.length with
      | '\x7d' :: '\x7d' :: post => some (g1, post)
      | _ => none
    | _ => none
  | _ => none

/-- Fuel-bounded regex sub for the placeholder patterns of build_prompt:
each matched placeholder is replaced by the string form of the context
value of its NAME group (empty when absent), scanning resuming after the
match. -/
def subCtxGo (tryAt : List Char → Option (List Char × List Char)) (ctx : Ctx) :
    Nat → List Char → List Char
  | 0, cs => cs
  | _ + 1, [] => []
  | f + 1, c :: cs =>
    match tryAt (c :: cs) with
    | some (name, post) =>
      (pyValToStr ((ctxFind ctx ⟨name⟩).getD (.pyStr ""))).data ++
        subCtxGo tryAt ctx f post
    | none => c :: subCtxGo tryAt ctx f cs

/-- The placeholder substitution of build_prompt: the typed four-field
pattern is substituted first, the short pattern over its output. -/
def substitutePlaceholders (ctx : Ctx) (text : String) : String :=
  let t1 : String := ⟨subCtxGo tryPH4At ctx text.data.length text.data⟩
  ⟨subCtxGo tryPHdupAt ctx t1.data.length t1.data⟩

/-- First match of one of the closing tokens in the text: the text before
the token and the text after it. -/
def findFirstCloseTok (closes : List (List Char)) : List Char → Option (List Char × List Char)
  | [] => none
  | c :: cs =>
    match closes.findSome? (fun cl =>
        if cl.isPrefixOf (c :: cs) then some cl.length else none) with
    | some n => some ([], (c :: cs).drop n)
    | none => (findFirstCloseTok closes cs).map (fun p => (c :: p.1, p.2))

/-- re.search of an open-token ... close-token block with lazy inner text
(the [%vars%] and [%extra%] patterns, whose closing token optionally
carries a slash): the text before the whole match, the inner text and the
text after the match. -/
def findSpanBlock (openTok : List Char) (closes : List (List Char)) (cs : List Char) :
    Option (List Char × List Char × List Char) :=
  match splitFirstAux openTok cs with
  | none => none
  | some (pre, rest) =>
    match findFirstCloseTok closes rest with
    | none => none
    | some (inner, post) => some (pre, inner, post)

/-- The directive registry _DIRECTIVE_FUNCS of SimplePromptBuilder, in
source order: every long name and short alias mapped to its transform. -/
def directiveFuncs : List (String × (String → String)) :=
  [("spaceless", directive_spaceless), ("sl", directive_spaceless),
   ("lower", directive_lower), ("lw", directive_lower),
   ("upper", directive_upper), ("up", directive_upper),
   ("title", directive_title), ("tl", directive_title),
   ("sentence", directive_sentence), ("snt", directive_sentence),
   ("trim", directive_trim), ("tr", directive_trim),
   ("dedent", directive_dedent), ("dd", directive_dedent),
   ("collapse_newlines", directive_collapse_newlines),
   ("cnl", directive_collapse_newlines),
   ("strip_punct", directive_strip_punct), ("sp", directive_strip_punct),
   ("unescape_html", directive_unescape_html), ("uneh", directive_unescape_html),
   ("list", directive_list), ("cl", directive_list),
   ("list_rtrim", directive_list_right), ("clr", directive_list_right),
   ("list_and", directive_list_and), ("la", directive_list_and)]

/-- Match of the directive-span pattern anchored at the start of the text:
an opening tag of a registered alias, lazy inner text, and the matching
stop tag.  The alternation tries the aliases in registry order; a start
tag whose stop tag never occurs does not match. -/
def tryDirAt (cs : List Char) : Option (String × List Char × List Char) :=
  match cs with
  | '\x7b' :: '%' :: rest =>
    match directiveFuncs.findSome? (fun e =>
        if (e.1 ++ "%\x7d").data.isPrefixOf rest then some e.1 else none) with
    | none => none
    | some tag =>
      let body := rest.drop (tag.length + 2)
      let closeTok := ("\x7b%" ++ tag ++ " stop%\x7d").data
      match splitFirstAux closeTok body with
      | none => none
      | some (inner, post) => some (tag, inner, post)
  | _ => none

/-- Leftmost match of the directive-span pattern: the text before it, the
tag, the inner text and the text after it. -/
def findDirectiveGo : List Char → Option (List Char × String × List Char × List Char)
  | [] => none
  | c :: cs =>
    match tryDirAt (c :: cs) with
    | some (tag, inner, post) => some ([], tag, inner, post)
    | none =>
      (findDirectiveGo cs).map (fun r => (c :: r.1, r.2.1, r.2.2.1, r.2.2.2))

/-- Lookup in the directive registry; an unknown tag keeps the processed
inner text unchanged (the fallback branch of the source). -/
def applyDirective (tag : String) (s : String) : String :=
  match directiveFuncs.findSome? (fun e => if e.1 = tag then some e.2 else none) with
  | some f => f s
  | none => s

/-- SimplePromptBuilder._process_directives: repeatedly find the leftmost
directive span, recursively process its inner text, apply the directive,
splice the result back and rescan.  The explicit fuel bounds the number of
search-and-splice iterations plus the recursion depth; every theorem below
supplies sufficient fuel for its input. -/
def process_directives (fuel : Nat) (text : String) : String :=
  match fuel with
  | 0 => text
  | f + 1 =>
    if text = "" then text
    else
      match findDirectiveGo text.data with
      | none => text
      | some (pre, tag, inner, post) =>
        let processedInner := process_directives f ⟨inner⟩
        let result := applyDirective tag processedInner
        process_directives f ⟨pre ++ result.data ++ post⟩

/-- SimplePromptBuilder.build_prompt.  The cachedValues argument arrives in
the source as a JSON string and is decoded with json.loads (standard
library); here it is taken directly as the decoded context, a malformed
JSON blob decoding to the empty context.  The help-text output, a per-node
constant, is omitted; the pair returned is (compiled_prompt,
extra_compiled).  fuel is passed through to process_directives. -/
def build_prompt (fuel : Nat) (prompt : String) (cachedValues : Ctx) (kwargs : Ctx) :
    String × String :=
  let merged := cachedValues ++ kwargs
  let ctx0 := (merged.filter (fun p => p.1 != "compiled_prompt")).filter
    (fun p => p.1 != "extra_compiled")
  let promptClean := strip_all_comments prompt
  let promptNoVars :=
    match findSpanBlock "[%vars%]".data ["[%/vars%]".data, "[%vars%]".data]
        promptClean.data with
    | some (pre, _, post) => (⟨pre ++ post⟩ : String)
    | none => promptClean
  let extraSplit :=
    match findSpanBlock "[%extra%]".data ["[%/extra%]".data, "[%extra%]".data]
        promptNoVars.data with
    | some (pre, inner, post) => ((⟨inner⟩ : String), (⟨pre ++ post⟩ : String))
    | none => ("", promptNoVars)
  let extraRaw := extraSplit.1
  let promptMain := extraSplit.2
  let promptProcessed := apply_tag_toggles promptMain ctx0
  let compiledRaw := substitutePlaceholders ctx0 promptProcessed
  let ctx1 := ctx0 ++ [("compiled_prompt", PyVal.pyStr compiledRaw)]
  let compiledPromptActive := to_bool ((ctxFind ctx1 "promptTextActive").getD (.pyBool false))
  let compiledPrompt := if compiledPromptActive then compiledRaw else ""
  let extraActive := to_bool ((ctxFind ctx1 "extraActive").getD (.pyBool false))
  let extraCompiled :=
    if extraRaw ≠ "" ∧ extraActive then
      substitutePlaceholders ctx1 (apply_tag_toggles extraRaw ctx1)
    else ""
  (process_directives fuel compiledPrompt, process_directives fuel extraCompiled)

/-! ## src/nodes/text/variable_builder.py: the recursive resolver

The nested functions resolve_variable / replace_placeholders / repl of
TextVariableBuilder.get_variable are embedded as a mutual recursion over an
explicit environment (raw dict, default line, rng stream, current date and
time strings) and an explicit state (resolution cache, warning log, rng
draw counter).  The closures in advanced_variable_builder.py lines 114-197
are textually identical to variable_builder.py lines 81-171 apart from the
logger prefix, so one embedding serves both nodes.  Termination for every
input is proved from the source's own cycle guard: a recursive expansion
pushes a fresh raw-dict key onto the call stack, so the number of raw-dict
keys outside the stack strictly decreases. -/

/-- The environment fixed during one get_variable call. -/
structure REnv where
  raw : List (String × String)
  dflt : String
  rng : Nat → Nat
  date : String
  time : String

/-- The mutable state threaded through one get_variable call: the
resolution cache, the warning log and the rng draw counter. -/
structure RState where
  cache : List (String × String)
  warns : List String
  idx : Nat
deriving Repr, DecidableEq

/-- choose_variant acting on the resolver state. -/
def chooseVariantSt (env : REnv) (v : String) (st : RState) : String × RState :=
  let c := choose_variant env.rng st.idx v
  (c.1, { st with idx := c.2 })

/-- raw_as_bool acting on the resolver state; the builders pass their
default_single_line value. -/
def rawAsBoolSt (env : REnv) (token : String) (st : RState) : Bool × RState :=
  let b := raw_as_bool token env.raw (some env.dflt) env.rng st.idx
  (b.1, { st with idx := b.2 })

/-- The termination measure: how many raw-dict keys are not yet on the
call stack. -/
def keysOutside (env : REnv) (stack : List String) : Nat :=
  ((env.raw.map Prod.fst).filter (fun n => decide (¬ n ∈ stack))).length

theorem length_filter_le_of_imp (p q : String → Bool)
    (h : ∀ n, p n = true → q n = true) (l : List String) :
    (l.filter p).length ≤ (l.filter q).length := by
  induction l with
  | nil => simp
  | cons a l ih =>
    by_cases hp : p a = true
    · rw [List.filter_cons_of_pos hp, List.filter_cons_of_pos (h a hp)]
      simpa using ih
    · rw [List.filter_cons_of_neg (by simpa using hp)]
      cases hq : q a
      · rw [List.filter_cons_of_neg (by simp [hq])]; exact ih
      · rw [List.filter_cons_of_pos hq]; exact Nat.le_succ_of_le ih

theorem filter_stack_push_lt (keys stack : List String) (name : String)
    (hmem : name ∈ keys) (hstk : ¬ name ∈ stack) :
    (keys.filter (fun n => decide (¬ n ∈ stack ++ [name]))).length <
      (keys.filter (fun n => decide (¬ n ∈ stack))).length := by
  have himp : ∀ n : String, decide (¬ n ∈ stack ++ [name]) = true →
      decide (¬ n ∈ stack) = true := by
    intro n hn
    simp only [decide_eq_true_eq, List.mem_append] at hn ⊢
    exact fun hmemb => hn (Or.inl hmemb)
  induction keys with
  | nil => cases hmem
  | cons k ks ih =>
    rcases List.mem_cons.mp hmem with rfl | hks
    · have hp : decide (¬ name ∈ stack ++ [name]) = false := by simp
      have hq : decide (¬ name ∈ stack) = true := by simpa using hstk
      have hmono := length_filter_le_of_imp _ _ himp ks
      simp only [List.filter_cons]
      rw [hp, hq, if_neg Bool.false_ne_true, if_pos rfl]
      simp only [List.length_cons]
      exact Nat.lt_succ_of_le hmono
    · by_cases hk1 : k ∈ stack
      · have hp : decide (¬ k ∈ stack ++ [name]) = false := by simp [hk1]
        have hq : decide (¬ k ∈ stack) = false := by simp [hk1]
        simp only [List.filter_cons]
        rw [hp, hq, if_neg Bool.false_ne_true, if_neg Bool.false_ne_true]
        exact ih hks
      · by_cases hk2 : k = name
        · subst hk2
          have hp : decide (¬ k ∈ stack ++ [k]) = false := by simp
          have hq : decide (¬ k ∈ stack) = true := by simpa using hk1
          simp only [List.filter_cons]
          rw [hp, hq, if_neg Bool.false_ne_true, if_pos rfl]
          simp only [List.length_cons]
          exact Nat.lt_succ_of_lt (ih hks)
        · have hp : decide (¬ k ∈ stack ++ [name]) = true := by simp [hk1, hk2]
          have hq : decide (¬ k ∈ stack) = true := by simpa using hk1
          simp only [List.filter_cons]
          rw [hp, hq, if_pos rfl, if_pos rfl]
          simp only [List.length_cons]
          exact Nat.succ_lt_succ (ih hks)

/-- The dict fold skips every pair whose key differs from the searched
key. -/
theorem foldl_dictFind_skip (k : String) :
    ∀ (d : List (String × String)) (acc : Option String),
      (∀ p ∈ d, p.1 ≠ k) →
      d.foldl (fun acc p => if p.1 = k then some p.2 else acc) acc = acc := by
  intro d
  induction d with
  | nil => intro acc _; rfl
  | cons p ps ih =>
    intro acc hall
    rw [List.foldl_cons, if_neg (hall p (List.mem_cons_self p ps))]
    exact ih acc fun q hq => hall q (List.mem_cons_of_mem p hq)

/-- A nonempty get from the raw dict means the key occurs in it. -/
theorem mem_map_fst_of_pyGet_ne (raw : List (String × String)) (k : String)
    (h : pyGet raw k ≠ "") : k ∈ raw.map Prod.fst := by
  by_contra hnot
  apply h
  have hd : dictFind raw k = none := by
    unfold dictFind
    apply foldl_dictFind_skip
    intro p hp hpk
    exact hnot (List.mem_map.mpr ⟨p, hp, hpk⟩)
  simp [pyGet, hd]

/-- The measure strictly decreases when a fresh raw-dict key is pushed. -/
theorem keysOutside_push_lt (env : REnv) (stack : List String) (name : String)
    (hraw : pyGet env.raw name ≠ "") (hstk : ¬ name ∈ stack) :
    keysOutside env (stack ++ [name]) < keysOutside env stack :=
  filter_stack_push_lt _ stack name (mem_map_fst_of_pyGet_ne env.raw name hraw) hstk

/-- Match of the resolver placeholder pattern anchored at the start of the
text: the inner text (no brace characters) and the rest after the span. -/
def tryPHAt (cs : List Char) : Option (List Char × List Char) :=
  match cs with
  | c1 :: c2 :: rest =>
    if c1 = '\x7b' ∧ c2 = '\x7b' then
      let inner := rest.takeWhile phAnyChar
      match rest.drop inner.length with
      | d1 :: d2 :: post =>
        if d1 = '\x7d' ∧ d2 = '\x7d' then some (inner, post) else none
      | _ => none
    else none
  | _ => none

/-- Fuel-bounded split of a text into the segments the placeholder regex
sub visits, left to right: Sum.inl is a literal character kept verbatim,
Sum.inr is the inner text of a matched placeholder.  A match consumes at
least four characters and a non-match one, so fuel equal to the length of
the text is exactly sufficient and the zero-fuel case is only reached on
the empty remainder. -/
def phSegs : Nat → List Char → List (Char ⊕ List Char)
  | 0, cs => cs.map Sum.inl
  | _ + 1, [] => []
  | f + 1, c :: cs =>
    match tryPHAt (c :: cs) with
    | some (inner, post) => Sum.inr inner :: phSegs f post
    | none => Sum.inl c :: phSegs f cs

mutual

/-- resolve_variable (variable_builder.py lines 81-102,
advanced_variable_builder.py lines 114-134): the reserved default names
resolve to the default line; a cached name resolves to its cached value; a
name already on the call stack resolves to the empty string, appending a
warning with the full chain; a name with an absent or empty raw value
resolves to the empty string; otherwise a random variant of the raw value
is chosen, its placeholders are expanded with the name pushed onto the
stack, and the result is cached under the name. -/
def resolve_variable (env : REnv) (name : String) (stack : List String)
    (st : RState) : String × RState :=
  if name = "default" ∨ name = "def" ∨ name = "_" then (env.dflt, st)
  else
    match dictFind st.cache name with
    | some v => (v, st)
    | none =>
      if name ∈ stack then
        ("", { st with
                warns := st.warns ++ [pyIntercalate " -> " (stack ++ [name])] })
      else
        if hraw : pyGet env.raw name = "" then ("", st)
        else
          let c := chooseVariantSt env (pyGet env.raw name) st
          let e := goSegs env (phSegs c.1.data.length c.1.data) (stack ++ [name]) c.2
          let expanded : String := ⟨e.1⟩
          (expanded, { e.2 with cache := e.2.cache ++ [(name, expanded)] })
termination_by (keysOutside env stack, 0)
decreasing_by
  simp_wf
  exact Prod.Lex.left _ _ (keysOutside_push_lt env stack name hraw (by assumption))

/-- The placeholder_pattern.sub loop of replace_placeholders
(variable_builder.py line 171) over the pre-split segments: literal
characters pass through, each placeholder body is handed to the repl
closure left to right with the state threaded through; replacement text is
never rescanned. -/
def goSegs (env : REnv) (segs : List (Char ⊕ List Char)) (stack : List String)
    (st : RState) : List Char × RState :=
  match segs with
  | [] => ([], st)
  | Sum.inl ch :: rest =>
    let r := goSegs env rest stack st
    (ch :: r.1, r.2)
  | Sum.inr inner :: rest =>
    let r := replRepl env inner stack st
    let rest2 := goSegs env rest stack r.2
    (r.1.data ++ rest2.1, rest2.2)
termination_by (keysOutside env stack, segs.length + 2)

/-- The repl closure inside replace_placeholders (variable_builder.py
lines 107-169): the stripped placeholder body is classified as the default
reference, DATE, TIME, an IF/IFNOT conditional, a fallback expression, a
quoted literal or a plain variable reference. -/
def replRepl (env : REnv) (innerRaw : List Char) (stack : List String)
    (st : RState) : String × RState :=
  let inner := pyStrip ⟨innerRaw⟩
  if pyLower inner = "" ∨ pyLower inner = "default" ∨ pyLower inner = "_" then
    (env.dflt, st)
  else if pyUpper inner = "DATE" then (env.date, st)
  else if pyUpper inner = "TIME" then (env.time, st)
  else if pyStartsWith (pyUpper inner) "IF:" ∨ pyStartsWith (pyUpper inner) "IFNOT:" then
    let isNot := pyStartsWith (pyUpper inner) "IFNOT:"
    let parts := pySplit inner ":"
    if parts.length < 3 then ("", st)
    else
      let boolTok := parts.getD 1 ""
      let trueTok := parts.getD 2 ""
      let falseTok := parts.getD 3 ""
      let cb := rawAsBoolSt env boolTok st
      let condition := if isNot then !cb.1 else cb.1
      let chosenTok := if condition then trueTok else falseTok
      match strip_quotes chosenTok with
      | some lit => (lit, cb.2)
      | none => resolve_variable env chosenTok stack cb.2
  else if hasSubstr inner "??" then
    let pq := splitFirst inner "??"
    let r := resolve_variable env (pyStrip pq.1) stack st
    if r.1 ≠ "" then r
    else
      match strip_quotes (pyStrip pq.2) with
      | some lit => (lit, r.2)
      | none => (pyStrip pq.2, r.2)
  else
    match strip_quotes inner with
    | some lit => (lit, st)
    | none => resolve_variable env inner stack st
termination_by (keysOutside env stack, 1)

end

/-- replace_placeholders (variable_builder.py lines 104-171): substitute
every placeholder of the text left to right via the segment split. -/
def replace_placeholders (env : REnv) (cs : List Char) (stack : List String)
    (st : RState) : List Char × RState :=
  goSegs env (phSegs cs.length cs) stack st

/-- The initial resolver state of one get_variable call. -/
def initState : RState := ⟨[], [], 0⟩

/-- Run one top-level resolution of a template against a raw dict and a
default line, starting from the empty cache; the date and time strings are
irrelevant to templates without DATE/TIME placeholders and are fixed
empty. -/
def runResolve (raw : List (String × String)) (dflt : String)
    (rng : Nat → Nat) (template : String) : String × RState :=
  let r := replace_placeholders ⟨raw, dflt, rng, "", ""⟩ template.data [] initState
  (⟨r.1⟩, r.2)


/-! ## An executable mirror of the resolver

The three mutually recursive resolver functions are defined by well-founded
recursion, which the kernel cannot evaluate.  stepF is a fuel-bounded,
structurally recursive mirror of the same three functions over a request
type; it returns none when the fuel runs out.  The soundness theorem below
shows that whenever stepF returns a result, the well-founded definitions
return the same result, so concrete runs of the resolver can be
established by evaluating stepF. -/

/-- A request to one of the three resolver functions. -/
inductive RReq where
  | rv (name : String) (stack : List String) (st : RState)
  | gs (segs : List (Char ⊕ List Char)) (stack : List String) (st : RState)
  | rp (innerRaw : List Char) (stack : List String) (st : RState)

def stepF (env : REnv) : Nat → RReq → Option ((String × RState) ⊕ (List Char × RState))
  | 0, _ => none
  | f + 1, .rv name stack st =>
    if name = "default" ∨ name = "def" ∨ name = "_" then some (.inl (env.dflt, st))
    else
      match dictFind st.cache name with
      | some v => some (.inl (v, st))
      | none =>
        if name ∈ stack then
          some (.inl ("", { st with
            warns := st.warns ++ [pyIntercalate " -> " (stack ++ [name])] }))
        else
          if pyGet env.raw name = "" then some (.inl ("", st))
          else
            let c := chooseVariantSt env (pyGet env.raw name) st
            match stepF env f (.gs (phSegs c.1.data.length c.1.data) (stack ++ [name]) c.2) with
            | some (.inr e) =>
              some (.inl (⟨e.1⟩,
                { e.2 with cache := e.2.cache ++ [(name, (⟨e.1⟩ : String))] }))
            | _ => none
  | f + 1, .gs segs stack st =>
    match segs with
    | [] => some (.inr ([], st))
    | .inl ch :: rest =>
      match stepF env f (.gs rest stack st) with
      | some (.inr r) => some (.inr (ch :: r.1, r.2))
      | _ => none
    | .inr inner :: rest =>
      match stepF env f (.rp inner stack st) with
      | some (.inl r) =>
        match stepF env f (.gs rest stack r.2) with
        | some (.inr rest2) => some (.inr (r.1.data ++ rest2.1, rest2.2))
        | _ => none
      | _ => none
  | f + 1, .rp innerRaw stack st =>
    let inner := pyStrip ⟨innerRaw⟩
    if pyLower inner = "" ∨ pyLower inner = "default" ∨ pyLower inner = "_" then
      some (.inl (env.dflt, st))
    else if pyUpper inner = "DATE" then some (.inl (env.date, st))
    else if pyUpper inner = "TIME" then some (.inl (env.time, st))
    else if pyStartsWith (pyUpper inner) "IF:" ∨ pyStartsWith (pyUpper inner) "IFNOT:" then
      let isNot := pyStartsWith (pyUpper inner) "IFNOT:"
      let parts := pySplit inner ":"
      if parts.length < 3 then some (.inl ("", st))
      else
        let boolTok := parts.getD 1 ""
        let trueTok := parts.getD 2 ""
        let falseTok := parts.getD 3 ""
        let cb := rawAsBoolSt env boolTok st
        let condition := if isNot then !cb.1 else cb.1
        let chosenTok := if condition then trueTok else falseTok
        match strip_quotes chosenTok with
        | some lit => some (.inl (lit, cb.2))
        | none =>
          match stepF env f (.rv chosenTok stack cb.2) with
          | some (.inl r) => some (.inl r)
          | _ => none
    else if hasSubstr inner "??" then
      let pq := splitFirst inner "??"
      match stepF env f (.rv (pyStrip pq.1) stack st) with
      | some (.inl r) =>
        if r.1 ≠ "" then some (.inl r)
        else
          match strip_quotes (pyStrip pq.2) with
          | some lit => some (.inl (lit, r.2))
          | none => some (.inl (pyStrip pq.2, r.2))
      | _ => none
    else
      match strip_quotes inner with
      | some lit => some (.inl (lit, st))
      | none =>
        match stepF env f (.rv inner stack st) with
        | some (.inl r) => some (.inl r)
        | _ => none

/-- Soundness of the executable mirror: whenever stepF returns a result,
the corresponding well-founded resolver function returns the same result.
Proved by induction on the fuel, following the branch structure of the
source. -/
theorem stepF_sound (env : REnv) :
    ∀ fuel : Nat,
      (∀ name stack st r, stepF env fuel (.rv name stack st) = some (.inl r) →
        resolve_variable env name stack st = r) ∧
      (∀ segs stack st r, stepF env fuel (.gs segs stack st) = some (.inr r) →
        goSegs env segs stack st = r) ∧
      (∀ innerRaw stack st r, stepF env fuel (.rp innerRaw stack st) = some (.inl r) →
        replRepl env innerRaw stack st = r) := by
  intro fuel
  induction fuel with
  | zero =>
    refine ⟨?_, ?_, ?_⟩ <;> intro a b c r h <;> simp [stepF] at h
  | succ f ih =>
    obtain ⟨ihr, ihg, ihp⟩ := ih
    refine ⟨?_, ?_, ?_⟩
    · intro name stack st r h
      rw [resolve_variable.eq_def]
      simp only [stepF] at h
      by_cases h1 : name = "default" ∨ name = "def" ∨ name = "_"
      · rw [if_pos h1] at h
        rw [if_pos h1]
        try simp only [Option.some.injEq, Sum.inl.injEq] at h
        exact h
      · rw [if_neg h1] at h
        rw [if_neg h1]
        rcases hc : dictFind st.cache name with _ | v
        · try rw [hc] at h
          try dsimp only at h ⊢
          by_cases h2 : name ∈ stack
          · rw [if_pos h2] at h ⊢
            try simp only [Option.some.injEq, Sum.inl.injEq] at h
            exact h
          · rw [if_neg h2] at h ⊢
            by_cases h3 : pyGet env.raw name = ""
            · rw [if_pos h3] at h
              rw [dif_pos h3]
              try simp only [Option.some.injEq, Sum.inl.injEq] at h
              exact h
            · rw [if_neg h3] at h
              rw [dif_neg h3]
              try dsimp only at h ⊢
              split at h
              · rename_i e heq
                try simp only [Option.some.injEq, Sum.inl.injEq] at h
                rw [ihg _ _ _ _ heq]
                exact h
              · simp at h
        · try rw [hc] at h
          try dsimp only at h ⊢
          try simp only [Option.some.injEq, Sum.inl.injEq] at h
          exact h
    · intro segs stack st r h
      rw [goSegs.eq_def]
      simp only [stepF] at h
      rcases segs with _ | ⟨seg, rest⟩
      · try dsimp only at h ⊢
        try simp only [Option.some.injEq, Sum.inr.injEq] at h
        exact h
      · rcases seg with ch | inner
        · try dsimp only at h ⊢
          split at h
          · rename_i r2 heq
            try simp only [Option.some.injEq, Sum.inr.injEq] at h
            rw [ihg _ _ _ _ heq]
            exact h
          · simp at h
        · try dsimp only at h ⊢
          split at h
          · rename_i r1 heq
            split at h
            · rename_i rest2 heq2
              try simp only [Option.some.injEq, Sum.inr.injEq] at h
              rw [ihp _ _ _ _ heq, ihg _ _ _ _ heq2]
              exact h
            · simp at h
          · simp at h
    · intro innerRaw stack st r h
      rw [replRepl.eq_def]
      simp only [stepF] at h
      try dsimp only at h ⊢
      by_cases h1 : pyLower (pyStrip ⟨innerRaw⟩) = "" ∨
          pyLower (pyStrip ⟨innerRaw⟩) = "default" ∨ pyLower (pyStrip ⟨innerRaw⟩) = "_"
      · rw [if_pos h1] at h ⊢
        try simp only [Option.some.injEq, Sum.inl.injEq] at h
        exact h
      · rw [if_neg h1] at h ⊢
        by_cases h2 : pyUpper (pyStrip ⟨innerRaw⟩) = "DATE"
        · rw [if_pos h2] at h ⊢
          try simp only [Option.some.injEq, Sum.inl.injEq] at h
          exact h
        · rw [if_neg h2] at h ⊢
          by_cases h3 : pyUpper (pyStrip ⟨innerRaw⟩) = "TIME"
          · rw [if_pos h3] at h ⊢
            try simp only [Option.some.injEq, Sum.inl.injEq] at h
            exact h
          · rw [if_neg h3] at h ⊢
            by_cases h4 : pyStartsWith (pyUpper (pyStrip ⟨innerRaw⟩)) "IF:" = true ∨
                pyStartsWith (pyUpper (pyStrip ⟨innerRaw⟩)) "IFNOT:" = true
            · rw [if_pos h4] at h ⊢
              try dsimp only at h ⊢
              by_cases h5 : (pySplit (pyStrip ⟨innerRaw⟩) ":").length < 3
              · rw [if_pos h5] at h ⊢
                try simp only [Option.some.injEq, Sum.inl.injEq] at h
                exact h
              · rw [if_neg h5] at h ⊢
                try dsimp only at h ⊢
                split at h
                · rename_i lit heq
                  try rw [heq]
                  try dsimp only
                  try simp only [Option.some.injEq, Sum.inl.injEq] at h
                  exact h
                · rename_i heq
                  try rw [heq]
                  try dsimp only
                  split at h
                  · rename_i r2 heq2
                    try simp only [Option.some.injEq, Sum.inl.injEq] at h
                    rw [ihr _ _ _ _ heq2]
                    exact h
                  · simp at h
            · rw [if_neg h4] at h ⊢
              by_cases h6 : hasSubstr (pyStrip ⟨innerRaw⟩) "??" = true
              · rw [if_pos h6] at h ⊢
                try dsimp only at h ⊢
                split at h
                · rename_i r1 heq
                  rw [ihr _ _ _ _ heq]
                  by_cases h7 : r1.1 ≠ ""
                  · rw [if_pos h7] at h ⊢
                    try simp only [Option.some.injEq, Sum.inl.injEq] at h
                    exact h
                  · rw [if_neg h7] at h ⊢
                    split at h
                    · rename_i lit heq2
                      try rw [heq2]
                      try dsimp only
                      try simp only [Option.some.injEq, Sum.inl.injEq] at h
                      exact h
                    · rename_i heq2
                      try rw [heq2]
                      try dsimp only
                      try simp only [Option.some.injEq, Sum.inl.injEq] at h
                      exact h
                · simp at h
              · rw [if_neg h6] at h ⊢
                split at h
                · rename_i lit heq
                  try rw [heq]
                  try dsimp only
                  try simp only [Option.some.injEq, Sum.inl.injEq] at h
                  exact h
                · rename_i heq
                  try rw [heq]
                  try dsimp only
                  split at h
                  · rename_i r2 heq2
                    try simp only [Option.some.injEq, Sum.inl.injEq] at h
                    rw [ihr _ _ _ _ heq2]
                    exact h
                  · simp at h

/-- Transfer of a mirrored run to replace_placeholders. -/
theorem replace_placeholders_of_stepF (env : REnv) (fuel : Nat) (cs : List Char)
    (stack : List String) (st : RState) (r : List Char × RState)
    (h : stepF env fuel (.gs (phSegs cs.length cs) stack st) = some (.inr r)) :
    replace_placeholders env cs stack st = r :=
  (stepF_sound env fuel).2.1 _ _ _ _ h

/-- Transfer of a mirrored run to a whole top-level resolution. -/
theorem runResolve_of_stepF (raw : List (String × String)) (dflt : String)
    (rng : Nat → Nat) (template : String) (fuel : Nat) (out : List Char) (st : RState)
    (h : stepF ⟨raw, dflt, rng, "", ""⟩ fuel
      (.gs (phSegs template.data.length template.data) [] initState) =
      some (.inr (out, st))) :
    runResolve raw dflt rng template = (⟨out⟩, st) := by
  unfold runResolve replace_placeholders
  rw [(stepF_sound _ fuel).2.1 _ _ _ _ h]

/-- If the segment split of a text is all literal characters (no
placeholder matched), the substitution returns the text and state
unchanged. -/
theorem goSegs_all_inl (env : REnv) (stack : List String) :
    ∀ (cs : List Char) (st : RState),
      goSegs env (cs.map Sum.inl) stack st = (cs, st) := by
  intro cs
  induction cs with
  | nil => intro st; rw [goSegs.eq_def]; rfl
  | cons c cs ih =>
    intro st
    rw [List.map_cons, goSegs.eq_def]
    dsimp only
    rw [ih st]

/-- replace_placeholders leaves a placeholder-free text unchanged. -/
theorem replace_placeholders_all_inl (env : REnv) (cs : List Char)
    (stack : List String) (st : RState)
    (h : phSegs cs.length cs = cs.map Sum.inl) :
    replace_placeholders env cs stack st = (cs, st) := by
  unfold replace_placeholders
  rw [h, goSegs_all_inl]

namespace TextVariableBuilder

/-- TextVariableBuilder.get_variable (variable_builder.py lines 62-185),
returning the first output VAR (the second output is the constant
HELP_TEXT).  INPUT_VAR is modelled in its string form, the current date
and time as the strings the DATE/TIME placeholders render to, and
random.choice as the rng stream. -/
def get_variable (switch out_val_by_switch : Bool)
    (var_name var_value INPUT_VAR : String) (rng : Nat → Nat)
    (date time : String) : String :=
  let lines := split_input_lines INPUT_VAR
  let rd := parse_input_lines lines
  let env : REnv := ⟨rd.1, rd.2, rng, date, time⟩
  let cleaned := if var_value ≠ "" then strip_all_comments var_value else ""
  let final_value : String :=
    if switch then ⟨(replace_placeholders env cleaned.data [] initState).1⟩ else ""
  if out_val_by_switch = true ∧ switch = false then ""
  else if pyStrip var_name ≠ "" then pyStrip var_name ++ " = " ++ final_value
  else final_value

end TextVariableBuilder

/-- Modelled from the spec: parse_other_vals is imported by
advanced_variable_builder.py from the text-package utilities module, which
is not among the provided sources.  Per the spec (sections 4.5 and 6 and
the node help text), the DYNAMIC_* input values add additional variables
at runtime on top of the INPUT_VAR lines; they are parsed with the same
name=value line rules, the dynamic lines taking effect after the INPUT_VAR
lines. -/
def parse_other_vals (other : List String) (lines : List String) :
    List (String × String) × String :=
  parse_input_lines (lines ++ other)

namespace AdvancedVariableBuilder

/-- AdvancedVariableBuilder.get_variable (advanced_variable_builder.py
lines 93-214), returning the first output VAR.  The DYNAMIC_* keyword
values are modelled as the list of their string values; the resolver
closures are shared with TextVariableBuilder because the two sources are
textually identical there. -/
def get_variable (switch out_val_by_switch : Bool)
    (var_name var_text INPUT_VAR : String) (dynamic_inputs : List String)
    (rng : Nat → Nat) (date time : String) : String :=
  let lines := split_input_lines INPUT_VAR
  let rd := parse_other_vals dynamic_inputs lines
  let env : REnv := ⟨rd.1, rd.2, rng, date, time⟩
  let cleaned := if var_text ≠ "" then strip_all_comments var_text else ""
  let final_value : String :=
    if switch then ⟨(replace_placeholders env cleaned.data [] initState).1⟩ else ""
  let escaped_value : String :=
    if pyStrip var_name ≠ "" then
      ⟨final_value.data.map (fun c => if c = '\n' then ' ' else c)⟩
    else final_value
  if out_val_by_switch = true ∧ switch = false then ""
  else if pyStrip var_name ≠ "" then pyStrip var_name ++ " = " ++ escaped_value
  else escaped_value

end AdvancedVariableBuilder

/-- The bounded split produces at most maxsplit + 1 pieces. -/
theorem wsSplitGo_length_le : ∀ (m : Nat) (cs : List Char),
    (wsSplitGo m cs).length ≤ m + 1 := by
  intro m
  induction m with
  | zero => intro cs; simp [wsSplitGo]
  | succ m ih =>
    intro cs
    rcases hf : findWsSep cs with _ | p <;> simp [wsSplitGo, hf]
    exact ih p.2

/-- C10: split_input_lines passes re.I + re.M = 10 as the maxsplit
positional argument of re.split, so a newline-containing INPUT_VAR string
is split into at most 11 segments; in a string with more than 10 line
breaks everything after the 10th separator stays joined in the final
segment, and name=value definitions in that remainder are not parsed as
separate lines. -/
theorem C10_split_input_lines_maxsplit :
    (∀ s : String, (split_input_lines s).length ≤ 11) ∧
    split_input_lines "l1\nl2\nl3\nl4\nl5\nl6\nl7\nl8\nl9\nl10\nl11\nl12\nl13" =
      ["l1", "l2", "l3", "l4", "l5", "l6", "l7", "l8", "l9", "l10",
        "l11\nl12\nl13"] ∧
    pyGet (parse_input_lines (split_input_lines
        "k1=v1\nk2=v2\nk3=v3\nk4=v4\nk5=v5\nk6=v6\nk7=v7\nk8=v8\nk9=v9\nk10=v10\nk11=v11\nk12=v12")).1
      "k11" = "v11\nk12=v12" ∧
    dictFind (parse_input_lines (split_input_lines
        "k1=v1\nk2=v2\nk3=v3\nk4=v4\nk5=v5\nk6=v6\nk7=v7\nk8=v8\nk9=v9\nk10=v10\nk11=v11\nk12=v12")).1
      "k12" = none := by
  refine ⟨?_, by decide, by decide, by decide⟩
  intro s
  unfold split_input_lines
  by_cases h : s.data.any (fun c => c == '\n' || c == '\r') = true <;> simp [h]
  exact wsSplitGo_length_le 10 s.data

/-- C6 counterexample: a default line is stored as written, not trimmed,
so the claim that DefaultValue is the trimmed content fails on a line with
surrounding whitespace. -/
theorem C6_default_line_cex :
    (parse_input_lines ["  a  "]).2 = "  a  " ∧
    (parse_input_lines ["  a  "]).2 ≠ pyStrip "  a  " := by decide

/-- C6 (amended): every line containing = is split at the first = into a
name and a value, both trimmed, a later duplicate name overwriting an
earlier one; every non-empty line with no = sets DefaultValue to its
content as written (not trimmed), the last such line winning; empty lines
are skipped and change nothing. -/
theorem C6_parse_input_lines_amended :
    (∀ (ls : List String) (l : String), l.data.contains '=' = true →
      parse_input_lines (ls ++ [l]) =
        ((parse_input_lines ls).1 ++
          [(pyStrip (splitFirst l "=").1, pyStrip (splitFirst l "=").2)],
         (parse_input_lines ls).2)) ∧
    (∀ (d : List (String × String)) (k v : String), pyGet (d ++ [(k, v)]) k = v) ∧
    (∀ (ls : List String) (l : String), l ≠ "" → l.data.contains '=' = false →
      parse_input_lines (ls ++ [l]) = ((parse_input_lines ls).1, l)) ∧
    (∀ ls : List String, parse_input_lines (ls ++ [""]) = parse_input_lines ls) := by
  refine ⟨?_, ?_, ?_, ?_⟩
  · intro ls l h
    have hne : l ≠ "" := by
      intro he
      rw [he] at h
      simp at h
    have h2 : '=' ∈ l.data := by simpa using h
    unfold parse_input_lines
    rw [List.foldl_append]
    simp [hne, h2]
  · intro d k v
    unfold pyGet dictFind
    rw [List.foldl_append]
    simp
  · intro ls l hne h
    have h2 : '=' ∉ l.data := by simpa using h
    unfold parse_input_lines
    rw [List.foldl_append]
    simp [hne, h2]
  · intro ls
    unfold parse_input_lines
    rw [List.foldl_append]
    simp

/-- C6 amended witness at concrete inputs. -/
theorem C6_parse_input_lines_amended_witness :
    parse_input_lines (["x=1"] ++ ["x = 2 "]) =
      ((parse_input_lines ["x=1"]).1 ++ [(pyStrip (splitFirst "x = 2 " "=").1,
        pyStrip (splitFirst "x = 2 " "=").2)], (parse_input_lines ["x=1"]).2) ∧
    pyGet ([("x", "1")] ++ [("x", "2")]) "x" = "2" ∧
    parse_input_lines ([] ++ ["  a  "]) = ((parse_input_lines []).1, "  a  ") ∧
    parse_input_lines (["b"] ++ [""]) = parse_input_lines ["b"] :=
  ⟨C6_parse_input_lines_amended.1 ["x=1"] "x = 2 " (by decide),
   C6_parse_input_lines_amended.2.1 [("x", "1")] "x" "2",
   C6_parse_input_lines_amended.2.2.1 [] "  a  " (by decide) (by decide),
   C6_parse_input_lines_amended.2.2.2 ["b"]⟩

/-- C5: raw_as_bool on a compound token: with && present the token is
split on && and all operands must be individually true; otherwise with ||
present the token is split on || and one true operand suffices; && takes
priority when both occur.  Concretely x&&y is false and x||y is true for
x = "true", y = "0", and a&&b||c is false even with a, b, c all true
because the operand "b||c" is looked up as a single unknown name. -/
theorem C5_raw_as_bool_compound :
    (∀ (t : String) (raw : List (String × String)) (rng : Nat → Nat) (idx : Nat),
      hasSubstr t "&&" = true →
      ¬(pyStrip (pyLower t) = "true" ∨ pyStrip (pyLower t) = "false") →
      raw_as_bool t raw none rng idx =
        evalAllParts ((pySplit t "&&").map pyStrip) raw rng idx) ∧
    (∀ (t : String) (raw : List (String × String)) (rng : Nat → Nat) (idx : Nat),
      hasSubstr t "&&" = false → hasSubstr t "||" = true →
      ¬(pyStrip (pyLower t) = "true" ∨ pyStrip (pyLower t) = "false") →
      raw_as_bool t raw none rng idx =
        evalAnyParts ((pySplit t "||").map pyStrip) raw rng idx) ∧
    (∀ (rng : Nat → Nat) (idx : Nat),
      (raw_as_bool "x&&y" [("x", "true"), ("y", "0")] none rng idx).1 = false) ∧
    (∀ (rng : Nat → Nat) (idx : Nat),
      (raw_as_bool "x||y" [("x", "true"), ("y", "0")] none rng idx).1 = true) ∧
    (∀ (rng : Nat → Nat) (idx : Nat),
      (raw_as_bool "a&&b||c" [("a", "true"), ("b", "true"), ("c", "true")]
        none rng idx).1 = false) := by
  refine ⟨?_, ?_, ?_, ?_, ?_⟩
  · intro t raw rng idx h h2
    rw [raw_as_bool]
    rw [if_neg (by simp), if_neg h2, if_pos (by rw [h]; simp), if_pos h]
  · intro t raw rng idx h h1 h2
    rw [raw_as_bool]
    rw [if_neg (by simp), if_neg h2, if_pos (by rw [h1]; simp), if_neg (by rw [h]; simp)]
  · intro rng idx
    simp [raw_as_bool, evalAllParts, evalAnyParts, evaluate_part_bool, choose_variant,
      pySplit, pySplitGo, splitFirstAux, pyStrip, pyLower, pyWs, pyGet, dictFind,
      hasSubstr, hasSubstr.go, falsyList, Nat.mod_one]
  · intro rng idx
    simp [raw_as_bool, evalAllParts, evalAnyParts, evaluate_part_bool, choose_variant,
      pySplit, pySplitGo, splitFirstAux, pyStrip, pyLower, pyWs, pyGet, dictFind,
      hasSubstr, hasSubstr.go, falsyList, Nat.mod_one]
  · intro rng idx
    simp [raw_as_bool, evalAllParts, evalAnyParts, evaluate_part_bool, choose_variant,
      pySplit, pySplitGo, splitFirstAux, pyStrip, pyLower, pyWs, pyGet, dictFind,
      hasSubstr, hasSubstr.go, falsyList, Nat.mod_one]

/-- C5 witness at concrete inputs. -/
theorem C5_raw_as_bool_compound_witness :
    raw_as_bool "x&&y" [("x", "true"), ("y", "0")] none (fun _ => 0) 0 =
      evalAllParts ((pySplit "x&&y" "&&").map pyStrip) [("x", "true"), ("y", "0")]
        (fun _ => 0) 0 ∧
    raw_as_bool "x||y" [("x", "true"), ("y", "0")] none (fun _ => 0) 0 =
      evalAnyParts ((pySplit "x||y" "||").map pyStrip) [("x", "true"), ("y", "0")]
        (fun _ => 0) 0 :=
  ⟨C5_raw_as_bool_compound.1 "x&&y" [("x", "true"), ("y", "0")] (fun _ => 0) 0
    (by decide) (by decide),
   C5_raw_as_bool_compound.2.1 "x||y" [("x", "true"), ("y", "0")] (fun _ => 0) 0
    (by decide) (by decide) (by decide)⟩

/-- C4: the directive compiler transforms the innermost span first (the
nested example compiles to HELLO WORLD), and a text in which the span
pattern finds no match - unmatched or malformed spans included - is
returned unchanged. -/
theorem C4_process_directives :
    process_directives 10
      "\x7b%up%\x7dhello \x7b%tl%\x7dworld\x7b%tl stop%\x7d\x7b%up stop%\x7d" =
      "HELLO WORLD" ∧
    (∀ (fuel : Nat) (t : String), findDirectiveGo t.data = none →
      process_directives fuel t = t) ∧
    process_directives 10 "a \x7b%up%\x7d no stop" = "a \x7b%up%\x7d no stop" := by
  refine ⟨by decide, ?_, by decide⟩
  intro fuel t h
  cases fuel with
  | zero => rfl
  | succ f =>
    rw [process_directives]
    by_cases ht : t = ""
    · simp [ht]
    · rw [if_neg ht, h]

/-- C4 witness at a concrete unmatched span. -/
theorem C4_process_directives_witness :
    process_directives 3 "x \x7b%lw%\x7d y" = "x \x7b%lw%\x7d y" :=
  C4_process_directives.2.1 3 "x \x7b%lw%\x7d y" (by decide)

/-- C3: a toggle span keeps its inner text and drops the tags when the
tag's context value coerces to true via the permissive parser, and drops
the whole span when it coerces to false; an absent key defaults to true;
the group form behaves the same; the coercion accepts true/1/yes/+
case-insensitively, also for non-string values via str(). -/
theorem C3_apply_tag_toggles :
    (∀ v : PyVal, apply_tag_toggles "A[[show]]B[[/show]]C" [("show", v)] =
      if to_bool v then "ABC" else "AC") ∧
    (∀ v : PyVal, apply_tag_toggles "A[[show:g1]]B[[/show]]C" [("show", v)] =
      if to_bool v then "ABC" else "AC") ∧
    apply_tag_toggles "A[[show]]B[[/show]]C" [] = "ABC" ∧
    apply_tag_toggles "A[[show]]B[[/show]]C" [("other", .pyBool false)] = "ABC" ∧
    to_bool (.pyStr "TRUE") = true ∧ to_bool (.pyStr "1") = true ∧
    to_bool (.pyStr "yes") = true ∧ to_bool (.pyStr "+") = true ∧
    to_bool (.pyBool false) = false ∧ to_bool (.pyStr "no") = false ∧
    to_bool (.pyStr "2") = false ∧ to_bool (.pyInt 1) = true := by
  refine ⟨?_, ?_, by decide, by decide, by decide, by decide, by decide, by decide,
    by decide, by decide, by decide, by decide⟩
  · intro v
    cases hb : to_bool v <;>
      simp [apply_tag_toggles, applyTagTogglesGo, tryTagAt, findTagClose, tagNameChar,
        groupChar, ctxFind, pyStrip, pyWs, hb]
  · intro v
    cases hb : to_bool v <;>
      simp [apply_tag_toggles, applyTagTogglesGo, tryTagAt, findTagClose, tagNameChar,
        groupChar, ctxFind, pyStrip, pyWs, hb]

/-- C8: build_prompt strips the reserved keys from the incoming context
and stores the freshly compiled main prompt under compiled_prompt before
the extra block is substituted, so a compiled_prompt placeholder in the
extra block expands to the compiled main prompt while the same placeholder
in the main template expands to the empty string, whatever values the
incoming cachedValues held under the reserved keys. -/
theorem C8_compiled_prompt_reserved :
    ∀ v w : PyVal,
      build_prompt 5
        "main-\x7b\x7bcompiled_prompt\x7d\x7d[%extra%]extra(\x7b\x7bcompiled_prompt\x7d\x7d)[%/extra%]"
        [("compiled_prompt", v), ("extra_compiled", w)]
        [("promptTextActive", .pyStr "true"), ("extraActive", .pyStr "true")] =
      ("main-", "extra(main-)") :=
  fun _ _ => rfl

/-- C1: within one call, a name already in the resolution cache resolves
to its cached value with the state untouched; consequently the template
with two occurrences of the same variant-valued variable always renders
two identical halves, whatever the random stream does, in both builder
nodes. -/
theorem C1_variant_determinism :
    (∀ (env : REnv) (name : String) (stack : List String) (st : RState) (v : String),
      dictFind st.cache name = some v →
      ¬(name = "default" ∨ name = "def" ∨ name = "_") →
      resolve_variable env name stack st = (v, st)) ∧
    (∀ rng : Nat → Nat, ∃ v : String, (v = "a" ∨ v = "b" ∨ v = "c") ∧
      TextVariableBuilder.get_variable true false "" "\x7b\x7bx\x7d\x7d-\x7b\x7bx\x7d\x7d"
        "x=a|b|c" rng "" "" = v ++ "-" ++ v) ∧
    (∀ rng : Nat → Nat, ∃ v : String, (v = "a" ∨ v = "b" ∨ v = "c") ∧
      AdvancedVariableBuilder.get_variable true false "" "\x7b\x7bx\x7d\x7d-\x7b\x7bx\x7d\x7d"
        "x=a|b|c" [] rng "" "" = v ++ "-" ++ v) := by
  refine ⟨?_, ?_, ?_⟩
  · intro env name stack st v h h2
    rw [resolve_variable.eq_def, if_neg h2, h]
  · intro rng
    have hlt : rng 0 % 3 < 3 := Nat.mod_lt _ (by omega)
    rcases h3 : rng 0 % 3 with _ | (_ | (_ | n))
    · refine ⟨"a", Or.inl rfl, ?_⟩
      simp [TextVariableBuilder.get_variable, split_input_lines, parse_input_lines,
        strip_all_comments, remove_multiline_comments, rmMultilineGo,
        remove_singleline_comments, pySplitLines, pySplitLinesGo,
        replace_placeholders, initState, phSegs, tryPHAt, phAnyChar,
        goSegs, replRepl, resolve_variable, pyStrip, pyLower, pyUpper, pyWs,
        strip_quotes, hasSubstr, hasSubstr.go, splitFirst, splitFirstAux, pySplit,
        pySplitGo, pyStartsWith, pyIntercalate, chooseVariantSt, choose_variant,
        dictFind, pyGet, rawAsBoolSt, raw_as_bool, Nat.mod_one, h3]
    · refine ⟨"b", Or.inr (Or.inl rfl), ?_⟩
      simp [TextVariableBuilder.get_variable, split_input_lines, parse_input_lines,
        strip_all_comments, remove_multiline_comments, rmMultilineGo,
        remove_singleline_comments, pySplitLines, pySplitLinesGo,
        replace_placeholders, initState, phSegs, tryPHAt, phAnyChar,
        goSegs, replRepl, resolve_variable, pyStrip, pyLower, pyUpper, pyWs,
        strip_quotes, hasSubstr, hasSubstr.go, splitFirst, splitFirstAux, pySplit,
        pySplitGo, pyStartsWith, pyIntercalate, chooseVariantSt, choose_variant,
        dictFind, pyGet, rawAsBoolSt, raw_as_bool, Nat.mod_one, h3]
    · refine ⟨"c", Or.inr (Or.inr rfl), ?_⟩
      simp [TextVariableBuilder.get_variable, split_input_lines, parse_input_lines,
        strip_all_comments, remove_multiline_comments, rmMultilineGo,
        remove_singleline_comments, pySplitLines, pySplitLinesGo,
        replace_placeholders, initState, phSegs, tryPHAt, phAnyChar,
        goSegs, replRepl, resolve_variable, pyStrip, pyLower, pyUpper, pyWs,
        strip_quotes, hasSubstr, hasSubstr.go, splitFirst, splitFirstAux, pySplit,
        pySplitGo, pyStartsWith, pyIntercalate, chooseVariantSt, choose_variant,
        dictFind, pyGet, rawAsBoolSt, raw_as_bool, Nat.mod_one, h3]
    · exact absurd (h3 ▸ hlt) (by omega)
  · intro rng
    have hlt : rng 0 % 3 < 3 := Nat.mod_lt _ (by omega)
    rcases h3 : rng 0 % 3 with _ | (_ | (_ | n))
    · refine ⟨"a", Or.inl rfl, ?_⟩
      simp [AdvancedVariableBuilder.get_variable, parse_other_vals,
        split_input_lines, parse_input_lines,
        strip_all_comments, remove_multiline_comments, rmMultilineGo,
        remove_singleline_comments, pySplitLines, pySplitLinesGo,
        replace_placeholders, initState, phSegs, tryPHAt, phAnyChar,
        goSegs, replRepl, resolve_variable, pyStrip, pyLower, pyUpper, pyWs,
        strip_quotes, hasSubstr, hasSubstr.go, splitFirst, splitFirstAux, pySplit,
        pySplitGo, pyStartsWith, pyIntercalate, chooseVariantSt, choose_variant,
        dictFind, pyGet, rawAsBoolSt, raw_as_bool, Nat.mod_one, h3]
    · refine ⟨"b", Or.inr (Or.inl rfl), ?_⟩
      simp [AdvancedVariableBuilder.get_variable, parse_other_vals,
        split_input_lines, parse_input_lines,
        strip_all_comments, remove_multiline_comments, rmMultilineGo,
        remove_singleline_comments, pySplitLines, pySplitLinesGo,
        replace_placeholders, initState, phSegs, tryPHAt, phAnyChar,
        goSegs, replRepl, resolve_variable, pyStrip, pyLower, pyUpper, pyWs,
        strip_quotes, hasSubstr, hasSubstr.go, splitFirst, splitFirstAux, pySplit,
        pySplitGo, pyStartsWith, pyIntercalate, chooseVariantSt, choose_variant,
        dictFind, pyGet, rawAsBoolSt, raw_as_bool, Nat.mod_one, h3]
    · refine ⟨"c", Or.inr (Or.inr rfl), ?_⟩
      simp [AdvancedVariableBuilder.get_variable, parse_other_vals,
        split_input_lines, parse_input_lines,
        strip_all_comments, remove_multiline_comments, rmMultilineGo,
        remove_singleline_comments, pySplitLines, pySplitLinesGo,
        replace_placeholders, initState, phSegs, tryPHAt, phAnyChar,
        goSegs, replRepl, resolve_variable, pyStrip, pyLower, pyUpper, pyWs,
        strip_quotes, hasSubstr, hasSubstr.go, splitFirst, splitFirstAux, pySplit,
        pySplitGo, pyStartsWith, pyIntercalate, chooseVariantSt, choose_variant,
        dictFind, pyGet, rawAsBoolSt, raw_as_bool, Nat.mod_one, h3]
    · exact absurd (h3 ▸ hlt) (by omega)

/-- C1 witness: the cache-hit clause applied at a concrete cached state. -/
theorem C1_variant_determinism_witness :
    resolve_variable ⟨[], "", fun _ => 0, "", ""⟩ "x" []
      ⟨[("x", "v")], [], 0⟩ = ("v", ⟨[("x", "v")], [], 0⟩) :=
  C1_variant_determinism.1 ⟨[], "", fun _ => 0, "", ""⟩ "x" []
    ⟨[("x", "v")], [], 0⟩ "v" (by decide) (by decide)

/-- C2: resolution terminates on every input - the resolver is defined by
well-founded recursion on the raw-dict keys outside the call stack, with
no partiality - and on the cyclic context the re-requested name resolves
to the empty string with one warning recording the chain, while the rest
of the template keeps resolving, whatever the random stream does. -/
theorem C2_cycle_safety :
    (∀ rng : Nat → Nat,
      runResolve [("a", "\x7b\x7bb\x7d\x7d"), ("b", "\x7b\x7ba\x7d\x7d")] "" rng
        "\x7b\x7ba\x7d\x7d" =
        ("", ⟨[("b", ""), ("a", "")], ["a -> b -> a"], 2⟩)) ∧
    (∀ rng : Nat → Nat,
      runResolve [("a", "\x7b\x7bb\x7d\x7d"), ("b", "\x7b\x7ba\x7d\x7d"), ("c", "ok")]
        "" rng "\x7b\x7ba\x7d\x7dX\x7b\x7bc\x7d\x7d" =
        ("Xok", ⟨[("b", ""), ("a", ""), ("c", "ok")], ["a -> b -> a"], 3⟩)) := by
  constructor
  · intro rng
    simp [runResolve, replace_placeholders, initState, phSegs, tryPHAt, phAnyChar,
      goSegs, replRepl, resolve_variable, pyStrip, pyLower, pyUpper, pyWs,
      strip_quotes, hasSubstr, hasSubstr.go, splitFirst, splitFirstAux, pySplit,
      pySplitGo, pyStartsWith, pyIntercalate, chooseVariantSt, choose_variant,
      dictFind, pyGet, rawAsBoolSt, raw_as_bool, Nat.mod_one]
    rfl
  · intro rng
    simp [runResolve, replace_placeholders, initState, phSegs, tryPHAt, phAnyChar,
      goSegs, replRepl, resolve_variable, pyStrip, pyLower, pyUpper, pyWs,
      strip_quotes, hasSubstr, hasSubstr.go, splitFirst, splitFirstAux, pySplit,
      pySplitGo, pyStartsWith, pyIntercalate, chooseVariantSt, choose_variant,
      dictFind, pyGet, rawAsBoolSt, raw_as_bool, Nat.mod_one]
    rfl

/-- C9: the boolean evaluator tests a freshly drawn raw variant without
recursive expansion and without consulting the resolution cache: the name
x with raw value a literal placeholder text is truthy for every random
stream even though resolving it yields the empty string, and with a
variant value the boolean test draws its own variant - here the resolver
draws the falsy variant 0 and caches it while the conditional in the same
call still evaluates x as true. -/
theorem C9_bool_eval_fresh_draw :
    (∀ (rng : Nat → Nat) (idx : Nat),
      (raw_as_bool "x" [("x", "\x7b\x7by\x7d\x7d")] none rng idx).1 = true) ∧
    (∀ rng : Nat → Nat,
      (runResolve [("x", "\x7b\x7by\x7d\x7d")] "" rng "\x7b\x7bx\x7d\x7d").1 = "") ∧
    runResolve [("x", "1|0")] "" (fun n => if n = 0 then 1 else 0)
      "\x7b\x7bx\x7d\x7d\x7b\x7bIF:x:\"T\":\"F\"\x7d\x7d" =
      ("0T", ⟨[("x", "0")], [], 2⟩) := by
  refine ⟨?_, ?_, ?_⟩
  · intro rng idx
    simp [raw_as_bool, evaluate_part_bool, choose_variant, pySplit, pySplitGo,
      splitFirstAux, pyStrip, pyLower, pyWs, pyGet, dictFind, hasSubstr,
      hasSubstr.go, falsyList, Nat.mod_one]
  · intro rng
    simp [runResolve, replace_placeholders, initState, phSegs, tryPHAt, phAnyChar,
      goSegs, replRepl, resolve_variable, pyStrip, pyLower, pyUpper, pyWs,
      strip_quotes, hasSubstr, hasSubstr.go, splitFirst, splitFirstAux, pySplit,
      pySplitGo, pyStartsWith, pyIntercalate, chooseVariantSt, choose_variant,
      dictFind, pyGet, rawAsBoolSt, raw_as_bool, Nat.mod_one]
  · exact runResolve_of_stepF _ _ _ _ 12 ['0', 'T'] ⟨[("x", "0")], [], 2⟩ (by decide)

/-- C7 counterexample: TextVariableBuilder does not collapse newlines in
the rendered value - the output keeps the internal newline - refuting the
claim that both variable-builder nodes replace internal newlines with
spaces. -/
theorem C7_text_newline_cex :
    TextVariableBuilder.get_variable true false "n" "a\nb" "" (fun _ => 0) "" "" =
      "n = a\nb" ∧
    "n = a\nb" ≠ "n = a b" := by
  constructor
  · simp [TextVariableBuilder.get_variable, split_input_lines, parse_input_lines,
      strip_all_comments, remove_multiline_comments, rmMultilineGo,
      remove_singleline_comments, pySplitLines, pySplitLinesGo,
      replace_placeholders, initState, phSegs, tryPHAt, phAnyChar,
      goSegs, replRepl, resolve_variable, pyStrip, pyLower, pyUpper, pyWs,
      strip_quotes, hasSubstr, hasSubstr.go, splitFirst, splitFirstAux, pySplit,
      pySplitGo, pyStartsWith, pyIntercalate, chooseVariantSt, choose_variant,
      dictFind, pyGet, rawAsBoolSt, raw_as_bool, Nat.mod_one]
  · decide

/-- Replacing newlines by spaces acts pointwise on the characters. -/
theorem getD_newline_map : ∀ (l : List Char) (i : Nat),
    (l.map (fun c => if c = '\n' then ' ' else c)).getD i ' ' =
      if l.getD i ' ' = '\n' then ' ' else l.getD i ' ' := by
  intro l
  induction l with
  | nil => intro i; simp [List.getD]
  | cons c cs ih =>
    intro i
    cases i with
    | zero => simp [List.getD]
    | succ n =>
      simp only [List.map_cons, List.getD_cons_succ]
      exact ih n

/-- The newline-to-space map leaves no newline in its output. -/
theorem newline_not_mem_map (l : List Char) :
    '\n' ∉ l.map (fun c => if c = '\n' then ' ' else c) := by
  intro h
  rcases List.mem_map.mp h with ⟨c, _, hc⟩
  by_cases hcn : c = '\n'
  · rw [if_pos hcn] at hc
    exact absurd hc (by decide)
  · rw [if_neg hcn] at hc
    exact hcn hc

/-- C7 (amended): for every input, every random stream and both var_name
cases - with switch on - TextVariableBuilder renders name = value with the
resolved value unmodified (newlines preserved), while
AdvancedVariableBuilder renders name = value with every internal newline
of the resolved value replaced by a space (no newline survives, the length
is preserved, and every position holds the original character unless that
character was a newline); with a blank var_name both nodes return the
resolved value unmodified. -/
theorem C7_newline_handling_amended :
    (∀ (out_sw : Bool) (var_name var_value INPUT_VAR : String) (rng : Nat → Nat)
        (date time : String) (v : String),
      v = ⟨(replace_placeholders
          ⟨(parse_input_lines (split_input_lines INPUT_VAR)).1,
           (parse_input_lines (split_input_lines INPUT_VAR)).2, rng, date, time⟩
          (if var_value ≠ "" then strip_all_comments var_value else "").data
          [] initState).1⟩ →
      (pyStrip var_name ≠ "" →
        TextVariableBuilder.get_variable true out_sw var_name var_value INPUT_VAR
            rng date time =
          pyStrip var_name ++ " = " ++ v) ∧
      (pyStrip var_name = "" →
        TextVariableBuilder.get_variable true out_sw var_name var_value INPUT_VAR
            rng date time = v)) ∧
    (∀ (out_sw : Bool) (var_name var_text INPUT_VAR : String)
        (dynamic_inputs : List String) (rng : Nat → Nat) (date time : String)
        (v w : String),
      v = ⟨(replace_placeholders
          ⟨(parse_other_vals dynamic_inputs (split_input_lines INPUT_VAR)).1,
           (parse_other_vals dynamic_inputs (split_input_lines INPUT_VAR)).2,
           rng, date, time⟩
          (if var_text ≠ "" then strip_all_comments var_text else "").data
          [] initState).1⟩ →
      w = ⟨v.data.map (fun c => if c = '\n' then ' ' else c)⟩ →
      (pyStrip var_name ≠ "" →
        AdvancedVariableBuilder.get_variable true out_sw var_name var_text INPUT_VAR
            dynamic_inputs rng date time =
          pyStrip var_name ++ " = " ++ w ∧
        '\n' ∉ w.data ∧
        w.data.length = v.data.length ∧
        (∀ i : Nat, w.data.getD i ' ' =
          if v.data.getD i ' ' = '\n' then ' ' else v.data.getD i ' ')) ∧
      (pyStrip var_name = "" →
        AdvancedVariableBuilder.get_variable true out_sw var_name var_text INPUT_VAR
            dynamic_inputs rng date time = v)) := by
  constructor
  · intro out_sw var_name var_value INPUT_VAR rng date time v hv
    subst hv
    constructor
    · intro h
      simp [TextVariableBuilder.get_variable, h]
    · intro h
      simp [TextVariableBuilder.get_variable, h]
  · intro out_sw var_name var_text INPUT_VAR dynamic_inputs rng date time v w hv hw
    subst hv
    subst hw
    constructor
    · intro h
      refine ⟨?_, ?_, ?_, ?_⟩
      · simp [AdvancedVariableBuilder.get_variable, h]
      · exact newline_not_mem_map _
      · simp
      · intro i
        exact getD_newline_map _ i
    · intro h
      simp [AdvancedVariableBuilder.get_variable, h]

/-- C7 amended witness: concrete instantiation with a two-newline value. -/
theorem C7_newline_handling_amended_witness :
    TextVariableBuilder.get_variable true false "n" "a\nb\nc" "" (fun _ => 0) "" "" =
      pyStrip "n" ++ " = " ++ "a\nb\nc" ∧
    AdvancedVariableBuilder.get_variable true false "n" "a\nb\nc" "" [] (fun _ => 0) "" "" =
      pyStrip "n" ++ " = " ++ "a b c" := by
  constructor
  · exact (C7_newline_handling_amended.1 false "n" "a\nb\nc" "" (fun _ => 0) "" ""
      "a\nb\nc"
      (by rw [replace_placeholders_all_inl _ _ _ _ (by decide)]; decide)).1 (by decide)
  · exact ((C7_newline_handling_amended.2 false "n" "a\nb\nc" "" [] (fun _ => 0) "" ""
      "a\nb\nc" "a b c"
      (by rw [replace_placeholders_all_inl _ _ _ _ (by decide)]; decide)
      (by decide)).1 (by decide)).1
